import Mathlib

/-!
Verification development for the fs-telemetry repository's
Telemetry Ingestion and Aggregation Core.

The Python source is shallowly embedded:

* Raw text lines are `List Char`.
* Python `int` values are `Int`; Python `float` values that the core ever
  stores are the results of parsing finite decimal literals, so they are
  embedded as exact scaled decimals (`Dec`, value `num / 10 ^ exp`,
  kept in a normal form so that structural equality coincides with the
  numeric equality Python uses on floats).  Statistics that divide use `Rat`.
  This exact-decimal model omits IEEE-754 rounding, infinities, NaN and
  exponent-notation literals; the claims checked here only concern values
  produced by parsing plain decimal text and printed back as decimal text,
  where the exact model and the float model agree observably.
* Fallible conversions return `Option`.
* The mutable `TelemetryManager`, the file-replay source and the loggers
  become explicit state-passing functions.
-/

/-- A scaled decimal: the exact value `num / 10 ^ exp`.  This is the model of
a Python float obtained from a finite decimal literal. -/
structure Dec where
  num : Int
  exp : Nat
  deriving DecidableEq, Repr

/-- The exact rational value of a scaled decimal (via divInt so that the
kernel can evaluate it on concrete inputs). -/
def Dec.toRat (d : Dec) : Rat := Rat.divInt d.num ((10 : Int) ^ d.exp)

/-- Normalisation: drop trailing decimal zeros, so that every value has one
representation (mirrors Python float equality being value equality). -/
def normDec : Int → Nat → Dec
  | n, 0 => ⟨n, 0⟩
  | n, e + 1 => if n % 10 = 0 then normDec (n / 10) e else ⟨n, e + 1⟩

/-- Normal form: either no decimal places, or the digits do not end in 0. -/
def Dec.Canon (d : Dec) : Prop := d.exp = 0 ∨ ¬ (10 : Int) ∣ d.num

/-! ### Characters and digits -/

/-- The whitespace characters removed by Python str.strip (ASCII part). -/
def isPySpace (c : Char) : Bool :=
  c = ' ' || c = '\t' || c = '\n' || c = '\x0d' || c = '\x0b' || c = '\x0c'

/-- Decimal digit test, as in Python int/float parsing of ASCII digits. -/
def isDigitChar (c : Char) : Bool := 48 ≤ c.toNat && c.toNat ≤ 57

/-- Numeric value of a digit character. -/
def digitVal (c : Char) : Nat := c.toNat - 48

/-- The character for a digit. -/
def dChar (d : Nat) : Char := Char.ofNat (48 + d)

/-- Accumulating left-to-right reading of a digit string. -/
def digitsToNat (l : List Char) : Nat :=
  l.foldl (fun a c => 10 * a + digitVal c) 0

/-- Little-endian base-10 digits, by fuel (structural recursion so the
kernel can evaluate it); `digitsFuel f n` is correct whenever `n ≤ f`. -/
def digitsFuel : Nat → Nat → List Nat
  | _, 0 => []
  | 0, _ + 1 => []
  | f + 1, n + 1 => (n + 1) % 10 :: digitsFuel f ((n + 1) / 10)

/-- Little-endian base-10 digits of a natural number. -/
def natDigits (n : Nat) : List Nat := digitsFuel n n

/-- Decimal rendering of a natural number, as Python str renders it. -/
def natStr (n : Nat) : List Char :=
  if n = 0 then ['0'] else ((natDigits n).reverse).map dChar

/-- Decimal rendering of an integer, as Python str(int). -/
def intStr (n : Int) : List Char :=
  if n < 0 then '-' :: natStr n.natAbs else natStr n.natAbs

/-! ### Python string operations used by the core -/

/-- Python str.strip(): remove leading and trailing whitespace. -/
def pyStrip (l : List Char) : List Char :=
  ((l.dropWhile isPySpace).reverse.dropWhile isPySpace).reverse

/-- Python str.split(sep) for a one-character separator: always returns
one more field than there are separators (so the empty string gives one
empty field). -/
def splitOnChar (sep : Char) : List Char → List (List Char)
  | [] => [[]]
  | c :: rest =>
    if c = sep then [] :: splitOnChar sep rest
    else
      match splitOnChar sep rest with
      | [] => [[c]]
      | f :: fs => (c :: f) :: fs

/-- Python str.join for a one-character separator. -/
def joinOnChar (sep : Char) : List (List Char) → List Char
  | [] => []
  | [f] => f
  | f :: g :: gs => f ++ sep :: joinOnChar sep (g :: gs)

/-- A nonempty run of decimal digits, read as a natural number. -/
def readDigits (ds : List Char) : Option Nat :=
  if ds ≠ [] ∧ ds.all isDigitChar then some (digitsToNat ds) else none

/-- Model of Python int(str): surrounding whitespace allowed, optional
sign, then a nonempty run of decimal digits (ValueError becomes none). -/
def pyInt (s : List Char) : Option Int :=
  match pyStrip s with
  | [] => none
  | c :: cs =>
    if c = '-' then (readDigits cs).map fun (v : Nat) => -(v : Int)
    else if c = '+' then (readDigits cs).map fun (v : Nat) => ((v : Int))
    else (readDigits (c :: cs)).map fun (v : Nat) => ((v : Int))

/-- Read an unsigned decimal literal: digits with at most one point and at
least one digit overall.  Returns the numerator digits' value and the
number of decimal places. -/
def readUnsignedDec (ds : List Char) : Option (Nat × Nat) :=
  match splitOnChar '.' ds with
  | [ip] =>
    if ip ≠ [] ∧ ip.all isDigitChar then some (digitsToNat ip, 0) else none
  | [ip, fp] =>
    if (ip ++ fp) ≠ [] ∧ (ip ++ fp).all isDigitChar then
      some (digitsToNat (ip ++ fp), fp.length)
    else none
  | _ => none

/-- Model of Python float(str) restricted to finite plain decimal literals:
surrounding whitespace allowed, optional sign, digits with at most one
decimal point.  The result is normalised, so equal float values coincide. -/
def pyFloat (s : List Char) : Option Dec :=
  match pyStrip s with
  | [] => none
  | c :: cs =>
    if c = '-' then
      (readUnsignedDec cs).map fun (p : Nat × Nat) => normDec (-(p.1 : Int)) p.2
    else if c = '+' then
      (readUnsignedDec cs).map fun (p : Nat × Nat) => normDec ((p.1 : Int)) p.2
    else
      (readUnsignedDec (c :: cs)).map fun (p : Nat × Nat) => normDec ((p.1 : Int)) p.2

/-- values[i] of the split fields: list indexing with the empty string as
the out-of-range default (the parser's length guards keep every access in
range, and Python's IndexError is caught into None anyway). -/
def getField (vs : List (List Char)) (i : Nat) : List Char := vs.getD i []

/-- Option bind (explicit copy: sequencing of fallible conversions, as the
try-block of the parser propagates the first ValueError). -/
def obind {A B : Type} (o : Option A) (f : A → Option B) : Option B :=
  match o with
  | none => none
  | some x => f x

/-! ### The telemetry record (src/src/csv_parser.py, class TelemetryData) -/

/-- One telemetry sample; field names and order follow the dataclass. -/
structure TelemetryData where
  time_ms : Int
  speed : Dec
  rpm : Int
  throttle : Dec
  battery_temp : Dec
  g_force_lat : Dec
  g_force_long : Dec
  g_force_vert : Dec
  acceleration_x : Dec
  acceleration_y : Dec
  acceleration_z : Dec
  gps_latitude : Dec
  gps_longitude : Dec
  gps_altitude : Dec
  tire_temp_fl : Dec
  tire_temp_fr : Dec
  tire_temp_rl : Dec
  tire_temp_rr : Dec
  deriving DecidableEq, Repr

/-- The header sentinel the parser rejects lines by. -/
def timeMsHeader : List Char := ['t', 'i', 'm', 'e', '_', 'm', 's']

/-- Legacy branch of parse_csv_line: 5 fields parsed, enhanced fields
filled with the fixed defaults (g_force_vert 1.0, all others 0.0). -/
def parseLegacy (vs : List (List Char)) : Option TelemetryData :=
  obind (pyInt (getField vs 0)) fun t =>
  obind (pyFloat (getField vs 1)) fun sp =>
  obind (pyInt (getField vs 2)) fun rp =>
  obind (pyFloat (getField vs 3)) fun th =>
  obind (pyFloat (getField vs 4)) fun bt =>
  some
    { time_ms := t, speed := sp, rpm := rp, throttle := th, battery_temp := bt
      g_force_lat := ⟨0, 0⟩, g_force_long := ⟨0, 0⟩, g_force_vert := ⟨1, 0⟩
      acceleration_x := ⟨0, 0⟩, acceleration_y := ⟨0, 0⟩, acceleration_z := ⟨0, 0⟩
      gps_latitude := ⟨0, 0⟩, gps_longitude := ⟨0, 0⟩, gps_altitude := ⟨0, 0⟩
      tire_temp_fl := ⟨0, 0⟩, tire_temp_fr := ⟨0, 0⟩
      tire_temp_rl := ⟨0, 0⟩, tire_temp_rr := ⟨0, 0⟩ }

/-- Enhanced branch of parse_csv_line: all 18 fields parsed positionally. -/
def parseEnhanced (vs : List (List Char)) : Option TelemetryData :=
  obind (pyInt (getField vs 0)) fun t =>
  obind (pyFloat (getField vs 1)) fun sp =>
  obind (pyInt (getField vs 2)) fun rp =>
  obind (pyFloat (getField vs 3)) fun th =>
  obind (pyFloat (getField vs 4)) fun bt =>
  obind (pyFloat (getField vs 5)) fun gl =>
  obind (pyFloat (getField vs 6)) fun gg =>
  obind (pyFloat (getField vs 7)) fun gv =>
  obind (pyFloat (getField vs 8)) fun ax =>
  obind (pyFloat (getField vs 9)) fun ay =>
  obind (pyFloat (getField vs 10)) fun az =>
  obind (pyFloat (getField vs 11)) fun la =>
  obind (pyFloat (getField vs 12)) fun lo =>
  obind (pyFloat (getField vs 13)) fun al =>
  obind (pyFloat (getField vs 14)) fun fl =>
  obind (pyFloat (getField vs 15)) fun fr =>
  obind (pyFloat (getField vs 16)) fun rl =>
  obind (pyFloat (getField vs 17)) fun rr =>
  some
    { time_ms := t, speed := sp, rpm := rp, throttle := th, battery_temp := bt
      g_force_lat := gl, g_force_long := gg, g_force_vert := gv
      acceleration_x := ax, acceleration_y := ay, acceleration_z := az
      gps_latitude := la, gps_longitude := lo, gps_altitude := al
      tire_temp_fl := fl, tire_temp_fr := fr, tire_temp_rl := rl, tire_temp_rr := rr }

/-- parse_csv_line (src/src/csv_parser.py): strip, reject empty and header
lines, split on the semicolon, dispatch on the field count, and let any
conversion failure yield none. -/
def parse_csv_line (line : List Char) : Option TelemetryData :=
  let l := pyStrip line
  if l = [] then none
  else if timeMsHeader.isPrefixOf l then none
  else
    let vs := splitOnChar ';' l
    if vs.length = 5 then parseLegacy vs
    else if vs.length = 18 then parseEnhanced vs
    else none

/-! ### Decimal rendering (Python str on int and float values) -/

/-- Value of a little-endian digit list. -/
def valD : List Nat → Nat
  | [] => 0
  | d :: ds => d + 10 * valD ds

/-- Render a Python float value (exact-decimal model) the way str renders
the float parsed from the same decimal text: sign, integer part, decimal
point, fractional digits; integral values end in .0. -/
def decStr (d : Dec) : List Char :=
  let mag := natStr d.num.natAbs
  let pad :=
    if mag.length < d.exp + 1 then
      List.replicate (d.exp + 1 - mag.length) '0' ++ mag
    else mag
  let body :=
    if d.exp = 0 then pad ++ ['.', '0']
    else pad.take (pad.length - d.exp) ++ '.' :: pad.drop (pad.length - d.exp)
  if d.num < 0 then '-' :: body else body

/-! ### CSV loggers (src/log_handlers/csv_logger.py and src/src/csv_logger.py)

Both log methods write the 18 record fields in dataclass order, each
rendered by str, joined by the writer's delimiter.  The logger from
log_handlers uses config.CSV_DELIMITER, which is the semicolon; the logger
under src/src constructs csv.writer with the default delimiter, the comma. -/

/-- One serialized row of a record, for a given delimiter. -/
def csvRow (sep : Char) (d : TelemetryData) : List Char :=
  joinOnChar sep
    [intStr d.time_ms, decStr d.speed, intStr d.rpm, decStr d.throttle,
     decStr d.battery_temp, decStr d.g_force_lat, decStr d.g_force_long,
     decStr d.g_force_vert, decStr d.acceleration_x, decStr d.acceleration_y,
     decStr d.acceleration_z, decStr d.gps_latitude, decStr d.gps_longitude,
     decStr d.gps_altitude, decStr d.tire_temp_fl, decStr d.tire_temp_fr,
     decStr d.tire_temp_rl, decStr d.tire_temp_rr]

/-- Row written by CSVLogger.log in src/log_handlers/csv_logger.py
(delimiter config.CSV_DELIMITER, the semicolon). -/
def logHandlersRow (d : TelemetryData) : List Char := csvRow ';' d

/-- Row written by CSVLogger.log in src/src/csv_logger.py (csv.writer with
the default delimiter, the comma). -/
def srcLoggerRow (d : TelemetryData) : List Char := csvRow ',' d

/-- Closeable state of the logger in src/src/csv_logger.py: whether
file_handle and csv_writer are set. -/
structure SrcCSVLogger where
  hasHandle : Bool
  hasWriter : Bool
  deriving DecidableEq, Repr

/-- close(): if the handle is set, close it and clear handle and writer. -/
def SrcCSVLogger.close (g : SrcCSVLogger) : SrcCSVLogger :=
  if g.hasHandle then ⟨false, false⟩ else g

/-- Closeable state of the logger in src/log_handlers/csv_logger.py:
whether a file object exists and whether it has been closed. -/
structure LogHandlersCSVLogger where
  hasFile : Bool
  fileClosed : Bool
  deriving DecidableEq, Repr

/-- close(): if the file exists and is not closed, close it. -/
def LogHandlersCSVLogger.close (g : LogHandlersCSVLogger) : LogHandlersCSVLogger :=
  if g.hasFile && !g.fileClosed then { g with fileClosed := true } else g

/-! ### Telemetry sources (src/acquisition/csv_source.py, src/src/serial_source.py) -/

/-- File-replay source state: the not-yet-consumed lines of the file, the
closed flag of the handle, and the diagnostic line counter. -/
structure CSVSource where
  pending : List (List Char)
  fileClosed : Bool
  line_count : Nat
  deriving DecidableEq, Repr

/-- A freshly constructed source over a file (list of its lines). -/
def CSVSource.open (file : List (List Char)) : CSVSource := ⟨file, false, 0⟩

/-- is_connected(): the handle exists (always, after construction) and is
not closed. -/
def CSVSource.is_connected (s : CSVSource) : Bool := !s.fileClosed

/-- read(): empty string when disconnected; otherwise the next line,
stripped, consuming it; the empty string at end of file.  The counter
grows only on lines that strip to nonempty text. -/
def CSVSource.read (s : CSVSource) : List Char × CSVSource :=
  if !s.is_connected then ([], s)
  else
    match s.pending with
    | [] => ([], s)
    | l :: rest =>
      let t := pyStrip l
      (t, { s with pending := rest
                   line_count := if t = [] then s.line_count else s.line_count + 1 })

/-- close(): close the handle if it exists and is not yet closed. -/
def CSVSource.close (s : CSVSource) : CSVSource :=
  if !s.fileClosed then { s with fileClosed := true } else s

/-- Live-serial source state: whether the serial channel is open. -/
structure SerialSource where
  isOpen : Bool
  deriving DecidableEq, Repr

/-- close(): close the channel if it exists and is open. -/
def SerialSource.close (s : SerialSource) : SerialSource :=
  if s.isOpen then ⟨false⟩ else s

/-! ### Telemetry manager (src/src/telemetry_manager.py) -/

/-- Manager state: last accepted record, full history, update counter. -/
structure TelemetryManager where
  current : Option TelemetryData
  history : List TelemetryData
  update_count : Nat
  deriving DecidableEq, Repr

/-- The just-constructed manager. -/
def TelemetryManager.init : TelemetryManager := ⟨none, [], 0⟩

/-- update(data): no-op on None; otherwise set current, append to history,
bump the counter. -/
def TelemetryManager.update (m : TelemetryManager) (data : Option TelemetryData) :
    TelemetryManager :=
  match data with
  | none => m
  | some d => ⟨some d, m.history ++ [d], m.update_count + 1⟩

/-- get_history_count(). -/
def TelemetryManager.get_history_count (m : TelemetryManager) : Nat := m.history.length

/-- clear_history(): discard history, current and counter. -/
def TelemetryManager.clear_history (_m : TelemetryManager) : TelemetryManager :=
  ⟨none, [], 0⟩

/-- reset_stats(): delegates to clear_history. -/
def TelemetryManager.reset_stats (m : TelemetryManager) : TelemetryManager :=
  m.clear_history

/-- Numeric strict order on decimal values, by cross multiplication (the
comparison Python applies to the underlying float values). -/
def decLt (a x : Dec) : Bool :=
  a.num * (10 : Int) ^ x.exp < x.num * (10 : Int) ^ a.exp

/-- Python max step over floats: keep the later element only when strictly
greater. -/
def pyMaxD (a x : Dec) : Dec := if decLt a x then x else a

/-- Python min step over floats. -/
def pyMinD (a x : Dec) : Dec := if decLt x a then x else a

/-- Python max over a nonempty float list (first element, then the rest). -/
def pyListMaxD (x : Dec) (l : List Dec) : Dec := l.foldl pyMaxD x

/-- Python min over a nonempty float list. -/
def pyListMinD (x : Dec) (l : List Dec) : Dec := l.foldl pyMinD x

/-- Exact addition of two decimal values (aligning the decimal scales). -/
def addDec (a b : Dec) : Dec :=
  ⟨a.num * (10 : Int) ^ (max a.exp b.exp - a.exp) +
     b.num * (10 : Int) ^ (max a.exp b.exp - b.exp),
   max a.exp b.exp⟩

/-- Exact sum of a list of float values. -/
def sumDec (l : List Dec) : Dec := l.foldl addDec ⟨0, 0⟩

/-- The exact value of sum(values) / n on floats: an exact division,
expressed through divInt so the kernel can evaluate it. -/
def avgDec (l : List Dec) (n : Nat) : Rat :=
  Rat.divInt (sumDec l).num ((10 : Int) ^ (sumDec l).exp * n)

/-- The mapping returned by get_stats on a nonempty history. -/
structure Stats where
  max_speed : Dec
  min_speed : Dec
  avg_speed : Rat
  max_rpm : Int
  min_rpm : Int
  avg_rpm : Rat
  max_temp : Dec
  min_temp : Dec
  avg_temp : Rat
  max_throttle : Dec
  data_points : Nat
  deriving DecidableEq, Repr

/-- get_stats(): the empty mapping (none) on empty history; otherwise the
min/max/avg aggregates over the whole history. -/
def TelemetryManager.getStats (m : TelemetryManager) : Option Stats :=
  match m.history with
  | [] => none
  | d :: ds =>
    some
      { max_speed := pyListMaxD d.speed (ds.map fun r => r.speed)
        min_speed := pyListMinD d.speed (ds.map fun r => r.speed)
        avg_speed := avgDec (d.speed :: ds.map fun r => r.speed) (ds.length + 1)
        max_rpm := (ds.map fun r => r.rpm).foldl max d.rpm
        min_rpm := (ds.map fun r => r.rpm).foldl min d.rpm
        avg_rpm := Rat.divInt ((d.rpm :: ds.map fun r => r.rpm).sum) (ds.length + 1 : Nat)
        max_temp := pyListMaxD d.battery_temp (ds.map fun r => r.battery_temp)
        min_temp := pyListMinD d.battery_temp (ds.map fun r => r.battery_temp)
        avg_temp := avgDec (d.battery_temp :: ds.map fun r => r.battery_temp) (ds.length + 1)
        max_throttle := pyListMaxD d.throttle (ds.map fun r => r.throttle)
        data_points := ds.length + 1 }

/-! ### Replay loop (src/src/main.py, main_replay) -/

/-- The while-loop of main_replay, running over the remaining lines: read
(which strips), stop on a falsy line, otherwise parse, update the
manager (update ignores None), continue. -/
def replayLines : List (List Char) → TelemetryManager → TelemetryManager
  | [], m => m
  | l :: rest, m =>
    let t := pyStrip l
    if t = [] then m
    else replayLines rest (m.update (parse_csv_line t))

/-- main_replay on a file: one read is consumed to skip the header, then
the while-loop runs until the first falsy read (end of file or a line
that strips to nothing). -/
def main_replay (file : List (List Char)) : TelemetryManager :=
  match file with
  | [] => TelemetryManager.init
  | _ :: rest => replayLines rest TelemetryManager.init

/-- Feed a list of records (all non-null) to a fresh manager. -/
def feedSome (l : List TelemetryData) : TelemetryManager :=
  l.foldl (fun m d => m.update (some d)) TelemetryManager.init

/-- The manager states reachable from construction by the public
operations. -/
inductive ReachableTM : TelemetryManager → Prop
  | init : ReachableTM TelemetryManager.init
  | update (m : TelemetryManager) (d : Option TelemetryData) :
      ReachableTM m → ReachableTM (m.update d)
  | clear (m : TelemetryManager) : ReachableTM m → ReachableTM m.clear_history
  | reset (m : TelemetryManager) : ReachableTM m → ReachableTM m.reset_stats

/-- Sample lines used as concrete inputs. -/
def hdrLine : List Char := "time_ms;speed;rpm;throttle;battery_temp".toList

def rowA : List Char := "1000;45.2;8120;0.78;62.3".toList

def rowB : List Char := "2000;50.0;8500;0.85;62.5".toList

def badLine : List Char := "invalid;data".toList


/-! ### Helper definitions used by the statements and proofs -/


/-- The sample enhanced 18-field line from the parser's docstring. -/
def enhLine : List Char :=
  "123456;45.2;8120;0.78;62.3;0.5;0.3;1.0;2.1;0.5;9.8;48.8566;2.3522;150;75.2;74.8;73.5;74.1".toList

/-- The record parse_csv_line produces for enhLine. -/
def enhRec : TelemetryData :=
  { time_ms := 123456, speed := ⟨452, 1⟩, rpm := 8120, throttle := ⟨78, 2⟩
    battery_temp := ⟨623, 1⟩
    g_force_lat := ⟨5, 1⟩, g_force_long := ⟨3, 1⟩, g_force_vert := ⟨1, 0⟩
    acceleration_x := ⟨21, 1⟩, acceleration_y := ⟨5, 1⟩, acceleration_z := ⟨98, 1⟩
    gps_latitude := ⟨488566, 4⟩, gps_longitude := ⟨23522, 4⟩, gps_altitude := ⟨150, 0⟩
    tire_temp_fl := ⟨752, 1⟩, tire_temp_fr := ⟨748, 1⟩
    tire_temp_rl := ⟨735, 1⟩, tire_temp_rr := ⟨741, 1⟩ }

/-- A record carrying a given speed and zeros elsewhere, for tests. -/
def mkSpeedRec (sp : Dec) : TelemetryData :=
  { time_ms := 0, speed := sp, rpm := 0, throttle := ⟨0, 0⟩, battery_temp := ⟨0, 0⟩
    g_force_lat := ⟨0, 0⟩, g_force_long := ⟨0, 0⟩, g_force_vert := ⟨0, 0⟩
    acceleration_x := ⟨0, 0⟩, acceleration_y := ⟨0, 0⟩, acceleration_z := ⟨0, 0⟩
    gps_latitude := ⟨0, 0⟩, gps_longitude := ⟨0, 0⟩, gps_altitude := ⟨0, 0⟩
    tire_temp_fl := ⟨0, 0⟩, tire_temp_fr := ⟨0, 0⟩
    tire_temp_rl := ⟨0, 0⟩, tire_temp_rr := ⟨0, 0⟩ }

/-- Histories with speeds 30, 50, 70, 60, 40. -/
def hist5 : List TelemetryData :=
  [mkSpeedRec ⟨30, 0⟩, mkSpeedRec ⟨50, 0⟩, mkSpeedRec ⟨70, 0⟩,
   mkSpeedRec ⟨60, 0⟩, mkSpeedRec ⟨40, 0⟩]

/-- The stats mapping get_stats returns for hist5. -/
def stats5 : Stats :=
  { max_speed := ⟨70, 0⟩, min_speed := ⟨30, 0⟩, avg_speed := (50 : Rat)
    max_rpm := 0, min_rpm := 0, avg_rpm := (0 : Rat)
    max_temp := ⟨0, 0⟩, min_temp := ⟨0, 0⟩, avg_temp := (0 : Rat)
    max_throttle := ⟨0, 0⟩, data_points := 5 }

/-- Some field of a 5-field line fails its numeric conversion (int for
positions 0 and 2, float for the rest). -/
def legacyFieldFailure (vs : List (List Char)) : Prop :=
  pyInt (getField vs 0) = none ∨ pyFloat (getField vs 1) = none ∨
  pyInt (getField vs 2) = none ∨ pyFloat (getField vs 3) = none ∨
  pyFloat (getField vs 4) = none

/-- Some field of an 18-field line fails its numeric conversion (int for
positions 0 and 2, float for the rest). -/
def enhancedFieldFailure (vs : List (List Char)) : Prop :=
  pyInt (getField vs 0) = none ∨ pyFloat (getField vs 1) = none ∨
  pyInt (getField vs 2) = none ∨ pyFloat (getField vs 3) = none ∨
  pyFloat (getField vs 4) = none ∨ pyFloat (getField vs 5) = none ∨
  pyFloat (getField vs 6) = none ∨ pyFloat (getField vs 7) = none ∨
  pyFloat (getField vs 8) = none ∨ pyFloat (getField vs 9) = none ∨
  pyFloat (getField vs 10) = none ∨ pyFloat (getField vs 11) = none ∨
  pyFloat (getField vs 12) = none ∨ pyFloat (getField vs 13) = none ∨
  pyFloat (getField vs 14) = none ∨ pyFloat (getField vs 15) = none ∨
  pyFloat (getField vs 16) = none ∨ pyFloat (getField vs 17) = none

def rowChar (c : Char) : Bool := isDigitChar c || c = '-' || c = '.'

/-- The zero-padded digit block of decStr. -/
def padDigits (d : Dec) : List Char :=
  if (natStr d.num.natAbs).length < d.exp + 1 then
    List.replicate (d.exp + 1 - (natStr d.num.natAbs).length) '0' ++ natStr d.num.natAbs
  else natStr d.num.natAbs

/-- The unsigned text of decStr. -/
def decBody (d : Dec) : List Char :=
  if d.exp = 0 then padDigits d ++ ['.', '0']
  else (padDigits d).take ((padDigits d).length - d.exp) ++
    '.' :: (padDigits d).drop ((padDigits d).length - d.exp)

def rowFields (d : TelemetryData) : List (List Char) :=
  [intStr d.time_ms, decStr d.speed, intStr d.rpm, decStr d.throttle,
   decStr d.battery_temp, decStr d.g_force_lat, decStr d.g_force_long,
   decStr d.g_force_vert, decStr d.acceleration_x, decStr d.acceleration_y,
   decStr d.acceleration_z, decStr d.gps_latitude, decStr d.gps_longitude,
   decStr d.gps_altitude, decStr d.tire_temp_fl, decStr d.tire_temp_fr,
   decStr d.tire_temp_rl, decStr d.tire_temp_rr]

/-- All float fields in normal form (true of every parser output). -/
def CanonRec (r : TelemetryData) : Prop :=
  r.speed.Canon ∧ r.throttle.Canon ∧ r.battery_temp.Canon ∧
  r.g_force_lat.Canon ∧ r.g_force_long.Canon ∧ r.g_force_vert.Canon ∧
  r.acceleration_x.Canon ∧ r.acceleration_y.Canon ∧ r.acceleration_z.Canon ∧
  r.gps_latitude.Canon ∧ r.gps_longitude.Canon ∧ r.gps_altitude.Canon ∧
  r.tire_temp_fl.Canon ∧ r.tire_temp_fr.Canon ∧ r.tire_temp_rl.Canon ∧
  r.tire_temp_rr.Canon


/-! ## Theorems -/


/-! ## Lemmas about the manager -/

theorem getLast?_cons_or {α : Type} (a : α) (l : List α) :
    (a :: l).getLast? = (l.getLast?).or (some a) := by
  induction l generalizing a with
  | nil => simp
  | cons b bs ih =>
    rw [List.getLast?_cons_cons, ih b]
    cases bs.getLast? <;> simp [Option.or]

theorem feed_foldl (l : List TelemetryData) (m : TelemetryManager) :
    (l.foldl (fun m d => m.update (some d)) m).history = m.history ++ l ∧
    (l.foldl (fun m d => m.update (some d)) m).update_count = m.update_count + l.length ∧
    (l.foldl (fun m d => m.update (some d)) m).current =
      (l.getLast?).or m.current := by
  induction l generalizing m with
  | nil => simp
  | cons d ds ih =>
    obtain ⟨h1, h2, h3⟩ := ih (m.update (some d))
    refine ⟨?_, ?_, ?_⟩
    · rw [List.foldl_cons, h1]
      simp [TelemetryManager.update]
    · rw [List.foldl_cons, h2]
      simp [TelemetryManager.update]
      omega
    · rw [List.foldl_cons, h3, getLast?_cons_or]
      cases ds.getLast? <;> simp [Option.or, TelemetryManager.update]

/-- C5: feeding N non-null records to a fresh manager gives
get_history_count N and update_count N, with the history in arrival
order and current the last record fed; update(None) is a no-op. -/
theorem manager_monotonicity (l : List TelemetryData) :
    (feedSome l).get_history_count = l.length ∧
    (feedSome l).update_count = l.length ∧
    (feedSome l).history = l ∧
    (feedSome l).current = l.getLast? ∧
    ∀ m : TelemetryManager, m.update none = m := by
  obtain ⟨h1, h2, h3⟩ := feed_foldl l TelemetryManager.init
  have hist : (feedSome l).history = l := by
    rw [feedSome, h1]; rfl
  refine ⟨?_, ?_, hist, ?_, ?_⟩
  · rw [TelemetryManager.get_history_count, hist]
  · rw [feedSome, h2]
    simp [TelemetryManager.init]
  · rw [feedSome, h3]
    cases l.getLast? <;> rfl
  · intro m; rfl

/-- C6: update_count equals the history length in the initial state, is
preserved by update (any argument), clear_history and reset_stats, and
therefore holds in every reachable manager state. -/
theorem update_count_eq_history_length :
    (TelemetryManager.init.update_count = TelemetryManager.init.history.length) ∧
    (∀ (m : TelemetryManager) (d : Option TelemetryData),
      m.update_count = m.history.length →
        (m.update d).update_count = (m.update d).history.length) ∧
    (∀ m : TelemetryManager,
      m.update_count = m.history.length →
        m.clear_history.update_count = m.clear_history.history.length) ∧
    (∀ m : TelemetryManager,
      m.update_count = m.history.length →
        m.reset_stats.update_count = m.reset_stats.history.length) ∧
    (∀ m : TelemetryManager, ReachableTM m → m.update_count = m.history.length) := by
  have step : ∀ (m : TelemetryManager) (d : Option TelemetryData),
      m.update_count = m.history.length →
        (m.update d).update_count = (m.update d).history.length := by
    intro m d h
    cases d with
    | none => simpa [TelemetryManager.update] using h
    | some x => simp [TelemetryManager.update, h]
  refine ⟨rfl, step, ?_, ?_, ?_⟩
  · intro m _; rfl
  · intro m _; rfl
  · intro m hr
    induction hr with
    | init => rfl
    | update m d _ ih => exact step m d ih
    | clear m _ _ => rfl
    | reset m _ _ => rfl

/-- Witness for C6: the theorem applied to the initial state. -/
theorem update_count_eq_history_length_witness :
    TelemetryManager.init.update_count = TelemetryManager.init.history.length :=
  update_count_eq_history_length.2.2.2.2 TelemetryManager.init ReachableTM.init

/-- C9: a second close() after a first one changes nothing, on the
file-replay source, the live-serial source, and both CSV logger
implementations (close is total, hence never raises). -/
theorem close_idempotent :
    (∀ s : CSVSource, s.close.close = s.close) ∧
    (∀ s : SerialSource, s.close.close = s.close) ∧
    (∀ g : SrcCSVLogger, g.close.close = g.close) ∧
    (∀ g : LogHandlersCSVLogger, g.close.close = g.close) := by
  refine ⟨?_, ?_, ?_, ?_⟩
  · intro s
    cases s with
    | mk p c n => cases c <;> simp [CSVSource.close]
  · intro s
    cases s with
    | mk o => cases o <;> simp [SerialSource.close]
  · intro g
    cases g with
    | mk h w => cases h <;> simp [SrcCSVLogger.close]
  · intro g
    cases g with
    | mk h c => cases h <;> cases c <;> simp [LogHandlersCSVLogger.close]

/-- C10: in the replay loop, a line that strips to nothing stops the loop,
so the lines after it contribute nothing: the loop result (and hence the
main_replay result when such a line sits after the header skip) does not
depend on what follows the blank line. -/
theorem replay_stops_at_blank (pre : List (List Char)) (b : List Char)
    (post : List (List Char)) (hb : pyStrip b = []) :
    (∀ m : TelemetryManager,
      replayLines (pre ++ b :: post) m = replayLines (pre ++ [b]) m) ∧
    ∀ h : List Char,
      main_replay (h :: (pre ++ b :: post)) = main_replay (h :: (pre ++ [b])) := by
  have loop : ∀ (pre : List (List Char)) (m : TelemetryManager),
      replayLines (pre ++ b :: post) m = replayLines (pre ++ [b]) m := by
    intro pre
    induction pre with
    | nil => intro m; simp [replayLines, hb]
    | cons l rest ih =>
      intro m
      simp only [List.cons_append, replayLines]
      split
      · rfl
      · exact ih _
  exact ⟨loop pre, fun h => loop pre TelemetryManager.init⟩

/-- Witness for C10: a whitespace-only line between two valid legacy rows
hides the second row from the manager. -/
theorem replay_stops_at_blank_witness :
    pyStrip ("   ".toList) = [] ∧
    main_replay [hdrLine, rowA, "   ".toList, rowB] =
      main_replay [hdrLine, rowA, "   ".toList] :=
  ⟨by decide,
    (replay_stops_at_blank [rowA] ("   ".toList) [rowB] (by decide)).2 hdrLine⟩

/-! ## Replay scenarios (C7) and source reads (C8) -/

/-- C7 counterexample: on the 3-line file whose middle line is
invalid;data between two valid legacy rows, the replay loop consumes the
first valid row as the header skip, so the history count is 1, not 2. -/
theorem replay_three_line_malformed_cex :
    ¬ (main_replay [rowA, badLine, rowB]).get_history_count = 2 := by
  decide

/-- C7 amended: the header+2-rows file yields history count 2 with
max_speed 50.0; the malformed-middle-line file yields count 2 when the
header line is present (4 lines), while on the literal 3-line file
(valid, invalid, valid) the header skip consumes the first valid row and
the count is 1; no error is surfaced in either run. -/
theorem replay_scenarios_amended :
    (main_replay [hdrLine, rowA, rowB]).get_history_count = 2 ∧
    ((main_replay [hdrLine, rowA, rowB]).getStats).map (fun s => s.max_speed) =
      some ⟨50, 0⟩ ∧
    (main_replay [hdrLine, rowA, badLine, rowB]).get_history_count = 2 ∧
    (main_replay [rowA, badLine, rowB]).get_history_count = 1 := by
  decide

/-- C8 counterexample: read() does not return the next line verbatim: a
line with surrounding whitespace comes back stripped. -/
theorem csv_read_not_verbatim :
    ¬ ((CSVSource.open [[' ', '4', '2', ' ']]).read).1 = [' ', '4', '2', ' '] := by
  decide

/-- C8 amended: on an open file-replay source, read() returns the next
line of the file stripped of surrounding whitespace (header lines
included) and consumes it; at end of file it returns the empty string and
leaves the source unchanged, so all further reads return the empty
string too. -/
theorem csv_read_amended (s : CSVSource) (hopen : s.fileClosed = false) :
    (s.pending = [] → s.read = ([], s)) ∧
    ∀ l rest, s.pending = l :: rest →
      (s.read).1 = pyStrip l ∧ (s.read).2.pending = rest ∧
      (s.read).2.fileClosed = false := by
  constructor
  · intro hp
    cases s with
    | mk p c n =>
      simp only at hp hopen
      subst hp hopen
      rfl
  · intro l rest hp
    cases s with
    | mk p c n =>
      simp only at hp hopen
      subst hp hopen
      exact ⟨rfl, rfl, rfl⟩

/-- Witness for C8: reading one stored line returns it stripped and
leaves an empty pending list; the source stays open. -/
theorem csv_read_amended_witness :
    (CSVSource.open [[' ', '4', '2', ' ']]).fileClosed = false ∧
    ((CSVSource.open [[' ', '4', '2', ' ']]).read).1 = pyStrip [' ', '4', '2', ' '] :=
  ⟨rfl,
    (((csv_read_amended (CSVSource.open [[' ', '4', '2', ' ']]) rfl).2)
      [' ', '4', '2', ' '] [] rfl).1⟩

/-! ## Lemmas for get_stats (C4) -/

theorem ten_pow_ne_zero (e : Nat) : ((10 : Rat) ^ e) ≠ 0 :=
  pow_ne_zero _ (by norm_num)

theorem decLt_iff (a x : Dec) : decLt a x = true ↔ a.toRat < x.toRat := by
  rw [Dec.toRat, Dec.toRat, ← not_le,
    Rat.divInt_le_divInt (by positivity) (by positivity), not_le, decLt]
  simp

theorem pyMaxD_cases (a x : Dec) : pyMaxD a x = a ∨ pyMaxD a x = x := by
  rw [pyMaxD]; split
  · exact Or.inr rfl
  · exact Or.inl rfl

theorem le_pyMaxD_left (a x : Dec) : a.toRat ≤ (pyMaxD a x).toRat := by
  rw [pyMaxD]; split
  · next h => exact le_of_lt ((decLt_iff a x).mp h)
  · exact le_refl _

theorem le_pyMaxD_right (a x : Dec) : x.toRat ≤ (pyMaxD a x).toRat := by
  rw [pyMaxD]; split
  · exact le_refl _
  · next h =>
    have := (decLt_iff a x).not.mp (by simpa using h)
    exact le_of_not_lt this

theorem pyMinD_cases (a x : Dec) : pyMinD a x = a ∨ pyMinD a x = x := by
  rw [pyMinD]; split
  · exact Or.inr rfl
  · exact Or.inl rfl

theorem pyMinD_le_left (a x : Dec) : (pyMinD a x).toRat ≤ a.toRat := by
  rw [pyMinD]; split
  · next h => exact le_of_lt ((decLt_iff x a).mp h)
  · exact le_refl _

theorem pyMinD_le_right (a x : Dec) : (pyMinD a x).toRat ≤ x.toRat := by
  rw [pyMinD]; split
  · exact le_refl _
  · next h =>
    have := (decLt_iff x a).not.mp (by simpa using h)
    exact le_of_not_lt this

theorem foldl_choice_mem {A : Type} (f : A → A → A)
    (hf : ∀ a b, f a b = a ∨ f a b = b) :
    ∀ (l : List A) (x : A), l.foldl f x ∈ x :: l := by
  intro l
  induction l with
  | nil => intro x; simp
  | cons a as ih =>
    intro x
    rw [List.foldl_cons]
    rcases List.mem_cons.mp (ih (f x a)) with hm | hm
    · rcases hf x a with hc | hc
      · rw [hm, hc]; exact List.mem_cons_self _ _
      · rw [hm, hc]
        exact List.mem_cons_of_mem _ (List.mem_cons_self _ _)
    · exact List.mem_cons_of_mem _ (List.mem_cons_of_mem _ hm)

theorem foldl_upper_bound {A B : Type} [Preorder B] (f : A → A → A) (g : A → B)
    (hub : ∀ a b, g a ≤ g (f a b) ∧ g b ≤ g (f a b)) :
    ∀ (l : List A) (x : A), ∀ q ∈ x :: l, g q ≤ g (l.foldl f x) := by
  intro l
  induction l with
  | nil =>
    intro x q hq
    rw [List.mem_singleton] at hq
    rw [hq]
    exact le_refl _
  | cons a as ih =>
    intro x q hq
    rw [List.foldl_cons]
    rcases List.mem_cons.mp hq with h | h
    · rw [h]
      exact le_trans (hub x a).1 (ih (f x a) (f x a) (List.mem_cons_self _ _))
    · rcases List.mem_cons.mp h with h | h
      · rw [h]
        exact le_trans (hub x a).2 (ih (f x a) (f x a) (List.mem_cons_self _ _))
      · exact ih (f x a) q (List.mem_cons_of_mem _ h)

theorem foldl_lower_bound {A B : Type} [Preorder B] (f : A → A → A) (g : A → B)
    (hlb : ∀ a b, g (f a b) ≤ g a ∧ g (f a b) ≤ g b) :
    ∀ (l : List A) (x : A), ∀ q ∈ x :: l, g (l.foldl f x) ≤ g q := by
  intro l
  induction l with
  | nil =>
    intro x q hq
    rw [List.mem_singleton] at hq
    rw [hq]
    exact le_refl _
  | cons a as ih =>
    intro x q hq
    rw [List.foldl_cons]
    rcases List.mem_cons.mp hq with h | h
    · rw [h]
      exact le_trans (ih (f x a) (f x a) (List.mem_cons_self _ _)) (hlb x a).1
    · rcases List.mem_cons.mp h with h | h
      · rw [h]
        exact le_trans (ih (f x a) (f x a) (List.mem_cons_self _ _)) (hlb x a).2
      · exact ih (f x a) q (List.mem_cons_of_mem _ h)

theorem pyListMaxD_mem (x : Dec) (l : List Dec) : pyListMaxD x l ∈ x :: l :=
  foldl_choice_mem pyMaxD pyMaxD_cases l x

theorem le_pyListMaxD (x : Dec) (l : List Dec) :
    ∀ q ∈ x :: l, q.toRat ≤ (pyListMaxD x l).toRat :=
  foldl_upper_bound pyMaxD Dec.toRat
    (fun a b => ⟨le_pyMaxD_left a b, le_pyMaxD_right a b⟩) l x

theorem pyListMinD_mem (x : Dec) (l : List Dec) : pyListMinD x l ∈ x :: l :=
  foldl_choice_mem pyMinD pyMinD_cases l x

theorem pyListMinD_le (x : Dec) (l : List Dec) :
    ∀ q ∈ x :: l, (pyListMinD x l).toRat ≤ q.toRat :=
  foldl_lower_bound pyMinD Dec.toRat
    (fun a b => ⟨pyMinD_le_left a b, pyMinD_le_right a b⟩) l x

theorem foldl_max_mem {A : Type} [LinearOrder A] (x : A) (l : List A) :
    l.foldl max x ∈ x :: l :=
  foldl_choice_mem max max_choice l x

theorem le_foldl_max {A : Type} [LinearOrder A] (x : A) (l : List A) :
    ∀ q ∈ x :: l, q ≤ l.foldl max x :=
  foldl_upper_bound max id (fun a b => ⟨le_max_left a b, le_max_right a b⟩) l x

theorem foldl_min_mem {A : Type} [LinearOrder A] (x : A) (l : List A) :
    l.foldl min x ∈ x :: l :=
  foldl_choice_mem min min_choice l x

theorem foldl_min_le {A : Type} [LinearOrder A] (x : A) (l : List A) :
    ∀ q ∈ x :: l, l.foldl min x ≤ q :=
  foldl_lower_bound min id (fun a b => ⟨min_le_left a b, min_le_right a b⟩) l x

theorem addDec_toRat (a b : Dec) : (addDec a b).toRat = a.toRat + b.toRat := by
  have ha : (10 : Rat) ^ (max a.exp b.exp - a.exp) * 10 ^ a.exp = 10 ^ max a.exp b.exp := by
    rw [← pow_add, Nat.sub_add_cancel (Nat.le_max_left _ _)]
  have hb : (10 : Rat) ^ (max a.exp b.exp - b.exp) * 10 ^ b.exp = 10 ^ max a.exp b.exp := by
    rw [← pow_add, Nat.sub_add_cancel (Nat.le_max_right _ _)]
  rw [addDec, Dec.toRat, Dec.toRat, Dec.toRat]
  simp only [Rat.divInt_eq_div]
  push_cast
  rw [div_add_div _ _ (ten_pow_ne_zero a.exp) (ten_pow_ne_zero b.exp),
    div_eq_div_iff (ten_pow_ne_zero _) (mul_ne_zero (ten_pow_ne_zero _) (ten_pow_ne_zero _))]
  linear_combination ((a.num : Rat) * 10 ^ b.exp) * ha + ((b.num : Rat) * 10 ^ a.exp) * hb

theorem foldl_addDec_toRat (l : List Dec) (acc : Dec) :
    (l.foldl addDec acc).toRat = acc.toRat + (l.map Dec.toRat).sum := by
  induction l generalizing acc with
  | nil => simp
  | cons a as ih =>
    rw [List.foldl_cons, ih (addDec acc a), addDec_toRat]
    simp [add_assoc]

theorem sumDec_toRat (l : List Dec) : (sumDec l).toRat = (l.map Dec.toRat).sum := by
  rw [sumDec, foldl_addDec_toRat]
  have : (⟨0, 0⟩ : Dec).toRat = 0 := by
    simp [Dec.toRat]
  rw [this, zero_add]

theorem avgDec_spec (l : List Dec) (n : Nat) (hn : n ≠ 0) :
    avgDec l n * (n : Rat) = (l.map Dec.toRat).sum := by
  have hn' : (n : Rat) ≠ 0 := Nat.cast_ne_zero.mpr hn
  rw [← sumDec_toRat, avgDec]
  simp only [Dec.toRat, Rat.divInt_eq_div]
  push_cast
  rw [← div_div, div_mul_cancel₀ _ hn']

theorem divInt_nat_mul (s : Int) (n : Nat) (hn : n ≠ 0) :
    Rat.divInt s ((n : Int)) * (n : Rat) = (s : Rat) := by
  have hn' : (n : Rat) ≠ 0 := Nat.cast_ne_zero.mpr hn
  rw [Rat.divInt_eq_div]
  push_cast
  rw [div_mul_cancel₀ _ hn']

/-- C4: get_stats() is the empty mapping exactly on an empty history;
otherwise its entries are the maxima, minima and exact arithmetic means of
speed, rpm and battery_temp over the whole history, the maximum throttle,
and the history length (each max/min is attained by some history element
and bounds all of them; each avg times the count equals the exact sum). -/
theorem getStats_spec (m : TelemetryManager) :
    (m.getStats = none ↔ m.history = []) ∧
    ∀ s, m.getStats = some s →
      (s.max_speed ∈ m.history.map (fun r => r.speed) ∧
        ∀ q ∈ m.history.map (fun r => r.speed), q.toRat ≤ s.max_speed.toRat) ∧
      (s.min_speed ∈ m.history.map (fun r => r.speed) ∧
        ∀ q ∈ m.history.map (fun r => r.speed), s.min_speed.toRat ≤ q.toRat) ∧
      s.avg_speed * (m.history.length : Rat) =
        (m.history.map (fun r => r.speed.toRat)).sum ∧
      (s.max_rpm ∈ m.history.map (fun r => r.rpm) ∧
        ∀ q ∈ m.history.map (fun r => r.rpm), q ≤ s.max_rpm) ∧
      (s.min_rpm ∈ m.history.map (fun r => r.rpm) ∧
        ∀ q ∈ m.history.map (fun r => r.rpm), s.min_rpm ≤ q) ∧
      s.avg_rpm * (m.history.length : Rat) =
        (((m.history.map (fun r => r.rpm)).sum : Int) : Rat) ∧
      (s.max_temp ∈ m.history.map (fun r => r.battery_temp) ∧
        ∀ q ∈ m.history.map (fun r => r.battery_temp), q.toRat ≤ s.max_temp.toRat) ∧
      (s.min_temp ∈ m.history.map (fun r => r.battery_temp) ∧
        ∀ q ∈ m.history.map (fun r => r.battery_temp), s.min_temp.toRat ≤ q.toRat) ∧
      s.avg_temp * (m.history.length : Rat) =
        (m.history.map (fun r => r.battery_temp.toRat)).sum ∧
      (s.max_throttle ∈ m.history.map (fun r => r.throttle) ∧
        ∀ q ∈ m.history.map (fun r => r.throttle), q.toRat ≤ s.max_throttle.toRat) ∧
      s.data_points = m.history.length := by
  constructor
  · cases hh : m.history with
    | nil => simp [TelemetryManager.getStats, hh]
    | cons d ds => simp [TelemetryManager.getStats, hh]
  · intro s hs
    cases hh : m.history with
    | nil =>
      simp [TelemetryManager.getStats, hh] at hs
    | cons d ds =>
      simp only [TelemetryManager.getStats, hh, Option.some.injEq] at hs
      subst hs
      refine ⟨⟨?_, ?_⟩, ⟨?_, ?_⟩, ?_, ⟨?_, ?_⟩, ⟨?_, ?_⟩, ?_, ⟨?_, ?_⟩, ⟨?_, ?_⟩,
        ?_, ⟨?_, ?_⟩, ?_⟩
      · rw [List.map_cons]
        exact pyListMaxD_mem _ _
      · rw [List.map_cons]
        exact le_pyListMaxD _ _
      · rw [List.map_cons]
        exact pyListMinD_mem _ _
      · rw [List.map_cons]
        exact pyListMinD_le _ _
      · have := avgDec_spec (d.speed :: ds.map fun r => r.speed) (ds.length + 1)
          (Nat.succ_ne_zero _)
        simpa [List.map_map, Function.comp] using this
      · rw [List.map_cons]
        exact foldl_max_mem _ _
      · rw [List.map_cons]
        exact le_foldl_max _ _
      · rw [List.map_cons]
        exact foldl_min_mem _ _
      · rw [List.map_cons]
        exact foldl_min_le _ _
      · have := divInt_nat_mul ((d.rpm :: ds.map fun r => r.rpm).sum) (ds.length + 1)
          (Nat.succ_ne_zero _)
        simpa using this
      · rw [List.map_cons]
        exact pyListMaxD_mem _ _
      · rw [List.map_cons]
        exact le_pyListMaxD _ _
      · rw [List.map_cons]
        exact pyListMinD_mem _ _
      · rw [List.map_cons]
        exact pyListMinD_le _ _
      · have := avgDec_spec (d.battery_temp :: ds.map fun r => r.battery_temp)
          (ds.length + 1) (Nat.succ_ne_zero _)
        simpa [List.map_map, Function.comp] using this
      · rw [List.map_cons]
        exact pyListMaxD_mem _ _
      · rw [List.map_cons]
        exact le_pyListMaxD _ _
      · simp

/-- Witness for C4: on the speeds 30, 50, 70, 60, 40 the returned mapping
has max_speed 70, min_speed 30 and avg_speed 50, and the theorem applies. -/
theorem getStats_spec_witness :
    (feedSome hist5).getStats = some stats5 ∧
    stats5.max_speed = ⟨70, 0⟩ ∧ stats5.min_speed = ⟨30, 0⟩ ∧
    stats5.avg_speed = (50 : Rat) ∧
    ∀ q ∈ (feedSome hist5).history.map (fun r => r.speed),
      q.toRat ≤ stats5.max_speed.toRat :=
  ⟨by decide, rfl, rfl, rfl,
    ((getStats_spec (feedSome hist5)).2 stats5 (by decide)).1.2⟩

/-! ## Rejection policy of the parser (C1) -/

theorem parseLegacy_eq_none_iff (vs : List (List Char)) :
    parseLegacy vs = none ↔ legacyFieldFailure vs := by
  rw [parseLegacy, legacyFieldFailure]
  cases h0 : pyInt (getField vs 0) <;> simp [obind, h0]
  cases h1 : pyFloat (getField vs 1) <;> simp [obind, h1]
  cases h2 : pyInt (getField vs 2) <;> simp [obind, h2]
  cases h3 : pyFloat (getField vs 3) <;> simp [obind, h3]
  cases h4 : pyFloat (getField vs 4) <;> simp [obind, h4]

theorem parseEnhanced_eq_none_iff (vs : List (List Char)) :
    parseEnhanced vs = none ↔ enhancedFieldFailure vs := by
  rw [parseEnhanced, enhancedFieldFailure]
  cases h0 : pyInt (getField vs 0) <;> simp [obind, h0]
  cases h1 : pyFloat (getField vs 1) <;> simp [obind, h1]
  cases h2 : pyInt (getField vs 2) <;> simp [obind, h2]
  cases h3 : pyFloat (getField vs 3) <;> simp [obind, h3]
  cases h4 : pyFloat (getField vs 4) <;> simp [obind, h4]
  cases h5 : pyFloat (getField vs 5) <;> simp [obind, h5]
  cases h6 : pyFloat (getField vs 6) <;> simp [obind, h6]
  cases h7 : pyFloat (getField vs 7) <;> simp [obind, h7]
  cases h8 : pyFloat (getField vs 8) <;> simp [obind, h8]
  cases h9 : pyFloat (getField vs 9) <;> simp [obind, h9]
  cases h10 : pyFloat (getField vs 10) <;> simp [obind, h10]
  cases h11 : pyFloat (getField vs 11) <;> simp [obind, h11]
  cases h12 : pyFloat (getField vs 12) <;> simp [obind, h12]
  cases h13 : pyFloat (getField vs 13) <;> simp [obind, h13]
  cases h14 : pyFloat (getField vs 14) <;> simp [obind, h14]
  cases h15 : pyFloat (getField vs 15) <;> simp [obind, h15]
  cases h16 : pyFloat (getField vs 16) <;> simp [obind, h16]
  cases h17 : pyFloat (getField vs 17) <;> simp [obind, h17]

/-- C1: parse_csv_line returns none exactly when, after stripping, the
line is empty, or begins with the header sentinel time_ms, or splits on
the semicolon into a field count other than 5 or 18, or some field fails
its numeric conversion; in every other case a record is returned. -/
theorem parse_csv_line_none_iff (line : List Char) :
    parse_csv_line line = none ↔
      pyStrip line = [] ∨
      timeMsHeader.isPrefixOf (pyStrip line) = true ∨
      ((splitOnChar ';' (pyStrip line)).length ≠ 5 ∧
        (splitOnChar ';' (pyStrip line)).length ≠ 18) ∨
      ((splitOnChar ';' (pyStrip line)).length = 5 ∧
        legacyFieldFailure (splitOnChar ';' (pyStrip line))) ∨
      ((splitOnChar ';' (pyStrip line)).length = 18 ∧
        enhancedFieldFailure (splitOnChar ';' (pyStrip line))) := by
  simp only [parse_csv_line]
  by_cases hl : pyStrip line = []
  · simp [hl]
  · by_cases hh : timeMsHeader.isPrefixOf (pyStrip line) = true
    · simp [hl, hh]
    · by_cases h5 : (splitOnChar ';' (pyStrip line)).length = 5
      · simp [hl, hh, h5, parseLegacy_eq_none_iff]
      · by_cases h18 : (splitOnChar ';' (pyStrip line)).length = 18
        · simp [hl, hh, h5, h18, parseEnhanced_eq_none_iff]
        · simp [hl, hh, h5, h18]

/-- Witness for C1: the line invalid;data is rejected (two fields). -/
theorem parse_csv_line_none_iff_witness :
    parse_csv_line badLine = none :=
  (parse_csv_line_none_iff badLine).mpr
    (by unfold legacyFieldFailure enhancedFieldFailure; decide)

/-- C2: a non-header line that strips to exactly 5 semicolon-separated
fields with well-formed numerics parses to the record carrying those five
values, with g_force_vert 1.0 and all other enhanced fields 0.0. -/
theorem parse_legacy_widening (line : List Char)
    (h5 : (splitOnChar ';' (pyStrip line)).length = 5)
    (hh : ¬ timeMsHeader.isPrefixOf (pyStrip line) = true)
    (t rp : Int) (sp th bt : Dec)
    (h0 : pyInt (getField (splitOnChar ';' (pyStrip line)) 0) = some t)
    (h1 : pyFloat (getField (splitOnChar ';' (pyStrip line)) 1) = some sp)
    (h2 : pyInt (getField (splitOnChar ';' (pyStrip line)) 2) = some rp)
    (h3 : pyFloat (getField (splitOnChar ';' (pyStrip line)) 3) = some th)
    (h4 : pyFloat (getField (splitOnChar ';' (pyStrip line)) 4) = some bt) :
    parse_csv_line line =
      some
        { time_ms := t, speed := sp, rpm := rp, throttle := th, battery_temp := bt
          g_force_lat := ⟨0, 0⟩, g_force_long := ⟨0, 0⟩, g_force_vert := ⟨1, 0⟩
          acceleration_x := ⟨0, 0⟩, acceleration_y := ⟨0, 0⟩, acceleration_z := ⟨0, 0⟩
          gps_latitude := ⟨0, 0⟩, gps_longitude := ⟨0, 0⟩, gps_altitude := ⟨0, 0⟩
          tire_temp_fl := ⟨0, 0⟩, tire_temp_fr := ⟨0, 0⟩
          tire_temp_rl := ⟨0, 0⟩, tire_temp_rr := ⟨0, 0⟩ } := by
  have hne : pyStrip line ≠ [] := by
    intro h
    rw [h] at h5
    simp [splitOnChar] at h5
  simp only [parse_csv_line]
  rw [if_neg hne, if_neg hh, if_pos h5]
  simp only [parseLegacy, h0, h1, h2, h3, h4, obind]

/-- Witness for C2: the sample legacy row parses to the widened record. -/
theorem parse_legacy_widening_witness :
    parse_csv_line rowA =
      some
        { time_ms := 1000, speed := ⟨452, 1⟩, rpm := 8120, throttle := ⟨78, 2⟩
          battery_temp := ⟨623, 1⟩
          g_force_lat := ⟨0, 0⟩, g_force_long := ⟨0, 0⟩, g_force_vert := ⟨1, 0⟩
          acceleration_x := ⟨0, 0⟩, acceleration_y := ⟨0, 0⟩, acceleration_z := ⟨0, 0⟩
          gps_latitude := ⟨0, 0⟩, gps_longitude := ⟨0, 0⟩, gps_altitude := ⟨0, 0⟩
          tire_temp_fl := ⟨0, 0⟩, tire_temp_fr := ⟨0, 0⟩
          tire_temp_rl := ⟨0, 0⟩, tire_temp_rr := ⟨0, 0⟩ } :=
  parse_legacy_widening rowA (by decide) (by decide) 1000 8120 ⟨452, 1⟩ ⟨78, 2⟩
    ⟨623, 1⟩ (by decide) (by decide) (by decide) (by decide) (by decide)


/-! ## Logger round-trip (C3) -/


theorem valD_digitsFuel : ∀ (f n : Nat), n ≤ f → valD (digitsFuel f n) = n := by
  intro f
  induction f with
  | zero =>
    intro n hn
    interval_cases n
    rfl
  | succ f ih =>
    intro n hn
    cases n with
    | zero => rfl
    | succ k =>
      rw [digitsFuel, valD]
      have hd : (k + 1) / 10 ≤ f := by
        have := Nat.div_lt_self (Nat.succ_pos k) (by norm_num : 1 < 10)
        omega
      rw [ih _ hd]
      omega

theorem valD_natDigits (n : Nat) : valD (natDigits n) = n :=
  valD_digitsFuel n n (le_refl n)

theorem digitsFuel_lt_ten : ∀ (f n : Nat), ∀ d ∈ digitsFuel f n, d < 10 := by
  intro f
  induction f with
  | zero =>
    intro n d hd
    cases n <;> simp [digitsFuel] at hd
  | succ f ih =>
    intro n d hd
    cases n with
    | zero => simp [digitsFuel] at hd
    | succ k =>
      rw [digitsFuel] at hd
      rcases List.mem_cons.mp hd with h | h
      · rw [h]; exact Nat.mod_lt _ (by norm_num)
      · exact ih _ d h

theorem digitVal_dChar {d : Nat} (h : d < 10) : digitVal (dChar d) = d := by
  interval_cases d <;> rfl

theorem isDigitChar_dChar {d : Nat} (h : d < 10) : isDigitChar (dChar d) = true := by
  interval_cases d <;> decide

theorem digitsToNat_append (l : List Char) (c : Char) :
    digitsToNat (l ++ [c]) = 10 * digitsToNat l + digitVal c := by
  rw [digitsToNat, digitsToNat, List.foldl_append]
  rfl

theorem digitsToNat_rev_map (l : List Nat) (h : ∀ d ∈ l, d < 10) :
    digitsToNat ((l.map dChar).reverse) = valD l := by
  induction l with
  | nil => rfl
  | cons d ds ih =>
    rw [List.map_cons, List.reverse_cons, digitsToNat_append,
      ih (fun x hx => h x (List.mem_cons_of_mem _ hx)),
      digitVal_dChar (h d (List.mem_cons_self _ _)), valD]
    ring

theorem natStr_ne_nil (n : Nat) : natStr n ≠ [] := by
  rw [natStr]
  split
  · simp
  · next hn =>
    cases n with
    | zero => exact absurd rfl hn
    | succ k =>
      rw [natDigits, digitsFuel]
      simp

theorem natStr_all_digit (n : Nat) : ∀ c ∈ natStr n, isDigitChar c = true := by
  rw [natStr]
  split
  · intro c hc
    rw [List.mem_singleton] at hc
    rw [hc]
    decide
  · intro c hc
    rw [List.mem_map] at hc
    obtain ⟨d, hd, rfl⟩ := hc
    rw [List.mem_reverse] at hd
    exact isDigitChar_dChar (digitsFuel_lt_ten n n d hd)

theorem digitsToNat_natStr (n : Nat) : digitsToNat (natStr n) = n := by
  rw [natStr]
  split
  · next hn => rw [hn]; rfl
  · rw [List.map_reverse,
      digitsToNat_rev_map (natDigits n) (fun d hd => digitsFuel_lt_ten n n d hd),
      valD_natDigits]

/-! char classes -/

theorem rowChar_not_space {c : Char} (h : rowChar c = true) : isPySpace c = false := by
  rw [rowChar] at h
  simp only [Bool.or_eq_true] at h
  rcases h with (hd | hm) | hp
  · by_contra hs
    simp only [Bool.not_eq_false, isPySpace, Bool.or_eq_true, decide_eq_true_eq] at hs
    rcases hs with ((((h1 | h1) | h1) | h1) | h1) | h1 <;>
      rw [h1] at hd <;> exact absurd hd (by decide)
  · rw [decide_eq_true_eq] at hm
    rw [hm]
    decide
  · rw [decide_eq_true_eq] at hp
    rw [hp]
    decide

theorem rowChar_ne {c : Char} (h : rowChar c = true) {x : Char}
    (hx : isDigitChar x = false ∧ x ≠ '-' ∧ x ≠ '.') : c ≠ x := by
  intro he
  rw [he] at h
  rw [rowChar] at h
  simp only [Bool.or_eq_true, decide_eq_true_eq] at h
  rcases h with (hd | hm) | hp
  · rw [hx.1] at hd; exact absurd hd (by decide)
  · exact hx.2.1 hm
  · exact hx.2.2 hp

theorem digit_rowChar {c : Char} (h : isDigitChar c = true) : rowChar c = true := by
  rw [rowChar, h]
  rfl

theorem natStr_rowChar (n : Nat) : ∀ c ∈ natStr n, rowChar c = true :=
  fun c hc => digit_rowChar (natStr_all_digit n c hc)

theorem intStr_rowChar (n : Int) : ∀ c ∈ intStr n, rowChar c = true := by
  rw [intStr]
  split
  · intro c hc
    rcases List.mem_cons.mp hc with h | h
    · rw [h]; decide
    · exact natStr_rowChar _ c h
  · exact natStr_rowChar _

theorem decStr_def (d : Dec) :
    decStr d = if d.num < 0 then '-' :: decBody d else decBody d := rfl

theorem padDigits_all_digit (d : Dec) : ∀ c ∈ padDigits d, isDigitChar c = true := by
  rw [padDigits]
  split
  · intro c hc
    rcases List.mem_append.mp hc with h | h
    · rw [List.eq_of_mem_replicate h]
      decide
    · exact natStr_all_digit _ c h
  · exact natStr_all_digit _

theorem padDigits_ne_nil (d : Dec) : padDigits d ≠ [] := by
  rw [padDigits]
  split
  · intro h
    rcases List.append_eq_nil.mp h with ⟨_, h2⟩
    exact natStr_ne_nil _ h2
  · exact natStr_ne_nil _

theorem padDigits_length (d : Dec) : d.exp + 1 ≤ (padDigits d).length := by
  rw [padDigits]
  split
  · next h =>
    rw [List.length_append, List.length_replicate]
    omega
  · next h => omega

theorem digitsToNat_cons_zero (t : List Char) : digitsToNat ('0' :: t) = digitsToNat t := rfl

theorem digitsToNat_replicate_zero (k : Nat) (l : List Char) :
    digitsToNat (List.replicate k '0' ++ l) = digitsToNat l := by
  induction k with
  | zero => rfl
  | succ j ih =>
    rw [List.replicate_succ, List.cons_append, digitsToNat_cons_zero, ih]

theorem digitsToNat_padDigits (d : Dec) : digitsToNat (padDigits d) = d.num.natAbs := by
  rw [padDigits]
  split
  · rw [digitsToNat_replicate_zero, digitsToNat_natStr]
  · rw [digitsToNat_natStr]

/-! split and join -/

theorem splitOnChar_no_sep (sep : Char) (f : List Char) (h : ∀ c ∈ f, c ≠ sep) :
    splitOnChar sep f = [f] := by
  induction f with
  | nil => rfl
  | cons c cs ih =>
    rw [splitOnChar, if_neg (h c (List.mem_cons_self _ _)),
      ih (fun x hx => h x (List.mem_cons_of_mem _ hx))]

theorem splitOnChar_sep_append (sep : Char) (f rest : List Char)
    (h : ∀ c ∈ f, c ≠ sep) :
    splitOnChar sep (f ++ sep :: rest) = f :: splitOnChar sep rest := by
  induction f with
  | nil =>
    rw [List.nil_append, splitOnChar, if_pos rfl]
  | cons c cs ih =>
    rw [List.cons_append, splitOnChar, if_neg (h c (List.mem_cons_self _ _)),
      ih (fun x hx => h x (List.mem_cons_of_mem _ hx))]

theorem splitOnChar_join (sep : Char) (fields : List (List Char))
    (hf : ∀ f ∈ fields, ∀ c ∈ f, c ≠ sep) (hne : fields ≠ []) :
    splitOnChar sep (joinOnChar sep fields) = fields := by
  induction fields with
  | nil => exact absurd rfl hne
  | cons f fs ih =>
    cases fs with
    | nil =>
      rw [joinOnChar, splitOnChar_no_sep sep f (hf f (List.mem_cons_self _ _))]
    | cons g gs =>
      rw [joinOnChar, splitOnChar_sep_append sep f _ (hf f (List.mem_cons_self _ _)),
        ih (fun x hx c hc => hf x (List.mem_cons_of_mem _ hx) c hc) (by simp)]

theorem joinOnChar_mem (sep : Char) (fields : List (List Char)) :
    ∀ c ∈ joinOnChar sep fields, c = sep ∨ ∃ f ∈ fields, c ∈ f := by
  induction fields with
  | nil => intro c hc; simp [joinOnChar] at hc
  | cons f fs ih =>
    cases fs with
    | nil =>
      intro c hc
      rw [joinOnChar] at hc
      exact Or.inr ⟨f, List.mem_cons_self _ _, hc⟩
    | cons g gs =>
      intro c hc
      rw [joinOnChar] at hc
      rcases List.mem_append.mp hc with h | h
      · exact Or.inr ⟨f, List.mem_cons_self _ _, h⟩
      · rcases List.mem_cons.mp h with h | h
        · exact Or.inl h
        · rcases ih c h with h2 | ⟨x, hx, hcx⟩
          · exact Or.inl h2
          · exact Or.inr ⟨x, List.mem_cons_of_mem _ hx, hcx⟩

/-! strip identity -/

theorem dropWhile_all_false {p : Char → Bool} (l : List Char)
    (h : ∀ c ∈ l, p c = false) : List.dropWhile p l = l := by
  cases l with
  | nil => rfl
  | cons c cs =>
    rw [List.dropWhile_cons, h c (List.mem_cons_self _ _)]
    simp

theorem pyStrip_eq_self (l : List Char) (h : ∀ c ∈ l, isPySpace c = false) :
    pyStrip l = l := by
  rw [pyStrip, dropWhile_all_false l h,
    dropWhile_all_false l.reverse (fun c hc => h c (List.mem_reverse.mp hc)),
    List.reverse_reverse]

/-! evaluating pyInt and pyFloat on stripped nonempty input -/

theorem pyInt_eval (c : Char) (cs : List Char) (h : pyStrip (c :: cs) = c :: cs) :
    pyInt (c :: cs) =
      if c = '-' then (readDigits cs).map fun (v : Nat) => -(v : Int)
      else if c = '+' then (readDigits cs).map fun (v : Nat) => ((v : Int))
      else (readDigits (c :: cs)).map fun (v : Nat) => ((v : Int)) := by
  unfold pyInt
  rw [h]

theorem pyFloat_eval (c : Char) (cs : List Char) (h : pyStrip (c :: cs) = c :: cs) :
    pyFloat (c :: cs) =
      if c = '-' then
        (readUnsignedDec cs).map fun (p : Nat × Nat) => normDec (-(p.1 : Int)) p.2
      else if c = '+' then
        (readUnsignedDec cs).map fun (p : Nat × Nat) => normDec ((p.1 : Int)) p.2
      else
        (readUnsignedDec (c :: cs)).map fun (p : Nat × Nat) => normDec ((p.1 : Int)) p.2 := by
  unfold pyFloat
  rw [h]

theorem readDigits_natStr (n : Nat) : readDigits (natStr n) = some n := by
  rw [readDigits, if_pos, digitsToNat_natStr]
  exact ⟨natStr_ne_nil n, List.all_eq_true.mpr (natStr_all_digit n)⟩

theorem digit_ne {c x : Char} (h : isDigitChar c = true)
    (hx : isDigitChar x = false) : c ≠ x := by
  intro he
  rw [he, hx] at h
  exact Bool.false_ne_true h

theorem readUnsignedDec_split (ip fp : List Char) (hip : ip ≠ [])
    (h1 : ∀ c ∈ ip, isDigitChar c = true) (h2 : ∀ c ∈ fp, isDigitChar c = true) :
    readUnsignedDec (ip ++ '.' :: fp) = some (digitsToNat (ip ++ fp), fp.length) := by
  rw [readUnsignedDec,
    splitOnChar_sep_append '.' ip fp
      (fun c hc => digit_ne (h1 c hc) (by decide)),
    splitOnChar_no_sep '.' fp (fun c hc => digit_ne (h2 c hc) (by decide))]
  show (if ip ++ fp ≠ [] ∧ (ip ++ fp).all isDigitChar = true then
      some (digitsToNat (ip ++ fp), fp.length)
    else none) = some (digitsToNat (ip ++ fp), fp.length)
  rw [if_pos]
  refine ⟨?_, ?_⟩
  · intro h
    exact hip (List.append_eq_nil.mp h).1
  · rw [List.all_eq_true]
    intro c hc
    rcases List.mem_append.mp hc with h | h
    · exact h1 c h
    · exact h2 c h

theorem decBody_exp_zero (d : Dec) (h : d.exp = 0) :
    readUnsignedDec (decBody d) = some (10 * d.num.natAbs, 1) := by
  rw [decBody, if_pos h]
  have : padDigits d ++ ['.', '0'] = padDigits d ++ '.' :: ['0'] := rfl
  rw [this, readUnsignedDec_split (padDigits d) ['0'] (padDigits_ne_nil d)
    (padDigits_all_digit d) (by intro c hc; rw [List.mem_singleton] at hc; rw [hc]; decide)]
  rw [digitsToNat_append, digitsToNat_padDigits]
  rfl

theorem decBody_exp_pos (d : Dec) (h : d.exp ≠ 0) :
    readUnsignedDec (decBody d) = some (d.num.natAbs, d.exp) := by
  have hlen := padDigits_length d
  have hle : d.exp ≤ (padDigits d).length := by omega
  have hip_ne : (padDigits d).take ((padDigits d).length - d.exp) ≠ [] := by
    intro he
    have := congrArg List.length he
    rw [List.length_take] at this
    simp at this
    omega
  rw [decBody, if_neg h,
    readUnsignedDec_split _ _ hip_ne
      (fun c hc => padDigits_all_digit d c (List.take_subset _ _ hc))
      (fun c hc => padDigits_all_digit d c (List.drop_subset _ _ hc)),
    List.take_append_drop, digitsToNat_padDigits, List.length_drop]
  congr 1
  congr 1
  omega

theorem decBody_ne_nil (d : Dec) : decBody d ≠ [] := by
  rw [decBody]
  split
  · intro he
    rcases List.append_eq_nil.mp he with ⟨_, h2⟩
    exact absurd h2 (by simp)
  · intro he
    rcases List.append_eq_nil.mp he with ⟨_, h2⟩
    exact absurd h2 (by simp)

theorem decBody_all_row (d : Dec) : ∀ c ∈ decBody d, rowChar c = true := by
  rw [decBody]
  split
  · intro c hc
    rcases List.mem_append.mp hc with h | h
    · exact digit_rowChar (padDigits_all_digit d c h)
    · rcases List.mem_cons.mp h with h | h
      · rw [h]; decide
      · rw [List.mem_singleton] at h; rw [h]; decide
  · intro c hc
    rcases List.mem_append.mp hc with h | h
    · exact digit_rowChar (padDigits_all_digit d c (List.take_subset _ _ h))
    · rcases List.mem_cons.mp h with h | h
      · rw [h]; decide
      · exact digit_rowChar (padDigits_all_digit d c (List.drop_subset _ _ h))

theorem decStr_all_row (d : Dec) : ∀ c ∈ decStr d, rowChar c = true := by
  rw [decStr_def]
  split
  · intro c hc
    rcases List.mem_cons.mp hc with h | h
    · rw [h]; decide
    · exact decBody_all_row d c h
  · exact decBody_all_row d

theorem decBody_head_digit (d : Dec) :
    ∃ c cs, decBody d = c :: cs ∧ isDigitChar c = true := by
  rw [decBody]
  split
  · cases hp : padDigits d with
    | nil => exact absurd hp (padDigits_ne_nil d)
    | cons p ps =>
      refine ⟨p, ps ++ ['.', '0'], by rw [List.cons_append], ?_⟩
      exact padDigits_all_digit d p (by rw [hp]; exact List.mem_cons_self _ _)
  · next h =>
    have hlen := padDigits_length d
    cases ht : (padDigits d).take ((padDigits d).length - d.exp) with
    | nil =>
      exfalso
      have := congrArg List.length ht
      rw [List.length_take] at this
      simp at this
      omega
    | cons p ps =>
      refine ⟨p, ps ++ '.' :: (padDigits d).drop ((padDigits d).length - d.exp),
        by rw [List.cons_append], ?_⟩
      have hmem : p ∈ List.take ((padDigits d).length - d.exp) (padDigits d) := by
        rw [ht]
        exact List.mem_cons_self _ _
      exact padDigits_all_digit d p (List.take_subset _ _ hmem)

theorem natStr_head (n : Nat) : ∃ c cs, natStr n = c :: cs ∧ isDigitChar c = true := by
  cases h : natStr n with
  | nil => exact absurd h (natStr_ne_nil n)
  | cons c cs =>
    refine ⟨c, cs, rfl, natStr_all_digit n c ?_⟩
    rw [h]
    exact List.mem_cons_self _ _

theorem pyInt_intStr (n : Int) : pyInt (intStr n) = some n := by
  by_cases hneg : n < 0
  · have hshape : intStr n = '-' :: natStr n.natAbs := by
      rw [intStr, if_pos hneg]
    have hstrip : pyStrip ('-' :: natStr n.natAbs) = '-' :: natStr n.natAbs := by
      refine pyStrip_eq_self _ ?_
      intro c hcm
      rcases List.mem_cons.mp hcm with h | h
      · rw [h]; decide
      · exact rowChar_not_space (digit_rowChar (natStr_all_digit _ c h))
    rw [hshape, pyInt_eval '-' _ hstrip, if_pos rfl, readDigits_natStr]
    rw [Option.map_some']
    congr 1
    omega
  · have hshape : intStr n = natStr n.natAbs := by
      rw [intStr, if_neg hneg]
    obtain ⟨c, cs, hcs, hdig⟩ := natStr_head n.natAbs
    have hstrip : pyStrip (c :: cs) = c :: cs := by
      refine pyStrip_eq_self _ ?_
      intro x hx
      rw [← hcs] at hx
      exact rowChar_not_space (digit_rowChar (natStr_all_digit _ x hx))
    rw [hshape, hcs, pyInt_eval c cs hstrip,
      if_neg (digit_ne hdig (by decide)), if_neg (digit_ne hdig (by decide)),
      ← hcs, readDigits_natStr, Option.map_some']
    congr 1
    omega

theorem pyFloat_decStr (d : Dec) (hc : d.Canon) : pyFloat (decStr d) = some d := by
  have hnospace : ∀ c ∈ decStr d, isPySpace c = false :=
    fun c hcm => rowChar_not_space (decStr_all_row d c hcm)
  by_cases hneg : d.num < 0
  · have hshape : decStr d = '-' :: decBody d := by
      rw [decStr_def, if_pos hneg]
    have hstrip : pyStrip ('-' :: decBody d) = '-' :: decBody d := by
      refine pyStrip_eq_self _ ?_
      intro c hcm
      rw [← hshape] at hcm
      exact hnospace c hcm
    rw [hshape, pyFloat_eval '-' _ hstrip, if_pos rfl]
    cases he : d.exp with
    | zero =>
      rw [decBody_exp_zero d he, Option.map_some']
      congr 1
      have h10 : ((10 * d.num.natAbs : Nat) : Int) = 10 * (d.num.natAbs : Int) := by
        push_cast
        ring
      rw [h10, normDec, if_pos (by omega), normDec]
      have h1 : -(10 * (d.num.natAbs : Int)) / 10 = -(d.num.natAbs : Int) := by omega
      rw [h1]
      cases d with
      | mk num exp =>
        simp only at he hneg ⊢
        rw [he]
        congr 1
        omega
    | succ e =>
      rw [decBody_exp_pos d (by omega), Option.map_some']
      congr 1
      have hnd : ¬ (10 : Int) ∣ d.num := by
        rcases hc with h0 | h0
        · rw [he] at h0; exact absurd h0 (by simp)
        · exact h0
      rw [he, normDec, if_neg (by omega)]
      cases d with
      | mk num exp =>
        simp only at he hneg hnd ⊢
        rw [he]
        congr 1
        omega
  · have hshape : decStr d = decBody d := by
      rw [decStr_def, if_neg hneg]
    obtain ⟨c, cs, hbody, hdig⟩ := decBody_head_digit d
    have hstrip : pyStrip (c :: cs) = c :: cs := by
      refine pyStrip_eq_self _ ?_
      intro x hx
      rw [← hbody] at hx
      rw [← hshape] at hx
      exact hnospace x hx
    rw [hshape, hbody, pyFloat_eval c cs hstrip,
      if_neg (digit_ne hdig (by decide)), if_neg (digit_ne hdig (by decide)), ← hbody]
    cases he : d.exp with
    | zero =>
      rw [decBody_exp_zero d he, Option.map_some']
      congr 1
      have h10 : ((10 * d.num.natAbs : Nat) : Int) = 10 * (d.num.natAbs : Int) := by
        push_cast
        ring
      rw [h10, normDec, if_pos (by omega), normDec]
      have h1 : 10 * (d.num.natAbs : Int) / 10 = (d.num.natAbs : Int) := by omega
      rw [h1]
      cases d with
      | mk num exp =>
        simp only at he hneg ⊢
        rw [he]
        congr 1
        omega
    | succ e =>
      rw [decBody_exp_pos d (by omega), Option.map_some']
      congr 1
      have hnd : ¬ (10 : Int) ∣ d.num := by
        rcases hc with h0 | h0
        · rw [he] at h0; exact absurd h0 (by simp)
        · exact h0
      rw [he, normDec, if_neg (by omega)]
      cases d with
      | mk num exp =>
        simp only at he hneg hnd ⊢
        rw [he]
        congr 1
        omega

/-! row-level facts -/

theorem csvRow_eq (sep : Char) (d : TelemetryData) :
    csvRow sep d = joinOnChar sep (rowFields d) := rfl

theorem rowFields_chars (d : TelemetryData) :
    ∀ f ∈ rowFields d, ∀ c ∈ f, rowChar c = true := by
  intro f hf
  simp only [rowFields, List.mem_cons, List.not_mem_nil, or_false] at hf
  rcases hf with rfl | rfl | rfl | rfl | rfl | rfl | rfl | rfl | rfl | rfl | rfl |
    rfl | rfl | rfl | rfl | rfl | rfl | rfl <;>
    first
      | exact intStr_rowChar _
      | exact decStr_all_row _

theorem row_no_space (sep : Char) (hs : isPySpace sep = false) (d : TelemetryData) :
    ∀ c ∈ joinOnChar sep (rowFields d), isPySpace c = false := by
  intro c hc
  rcases joinOnChar_mem sep (rowFields d) c hc with h | ⟨f, hf, hcf⟩
  · rw [h]; exact hs
  · exact rowChar_not_space (rowFields_chars d f hf c hcf)

theorem row_strip (sep : Char) (hs : isPySpace sep = false) (d : TelemetryData) :
    pyStrip (joinOnChar sep (rowFields d)) = joinOnChar sep (rowFields d) :=
  pyStrip_eq_self _ (row_no_space sep hs d)

theorem rowChar_ne_semi {c : Char} (h : rowChar c = true) : c ≠ ';' :=
  rowChar_ne h ⟨by decide, by decide, by decide⟩

/-! the comma-delimited row of src/src/csv_logger.py never re-parses -/

theorem srcLoggerRow_no_reparse (d : TelemetryData) :
    parse_csv_line (srcLoggerRow d) = none := by
  have hstrip := row_strip ',' (by decide) d
  have hsplit : splitOnChar ';' (joinOnChar ',' (rowFields d)) =
      [joinOnChar ',' (rowFields d)] := by
    refine splitOnChar_no_sep ';' _ ?_
    intro c hc
    rcases joinOnChar_mem ',' (rowFields d) c hc with h | ⟨f, hf, hcf⟩
    · rw [h]; decide
    · exact rowChar_ne_semi (rowFields_chars d f hf c hcf)
  rw [srcLoggerRow, csvRow_eq]
  simp only [parse_csv_line, hstrip, hsplit]
  by_cases hnil : joinOnChar ',' (rowFields d) = []
  · rw [if_pos hnil]
  · rw [if_neg hnil]
    by_cases hh : timeMsHeader.isPrefixOf (joinOnChar ',' (rowFields d)) = true
    · rw [if_pos hh]
    · rw [if_neg hh, if_neg (by simp), if_neg (by simp)]

/-! canonical shape of every parsed float -/

theorem normDec_canon : ∀ (e : Nat) (n : Int), (normDec n e).Canon := by
  intro e
  induction e with
  | zero => intro n; exact Or.inl rfl
  | succ k ih =>
    intro n
    rw [normDec]
    split
    · exact ih _
    · next h =>
      refine Or.inr fun hd => h ?_
      obtain ⟨m, rfl⟩ := hd
      omega

theorem pyFloat_nil (s : List Char) (hps : pyStrip s = []) : pyFloat s = none := by
  unfold pyFloat
  rw [hps]

theorem pyFloat_cons (s : List Char) (c : Char) (cs : List Char)
    (hps : pyStrip s = c :: cs) :
    pyFloat s =
      if c = '-' then
        (readUnsignedDec cs).map fun (p : Nat × Nat) => normDec (-(p.1 : Int)) p.2
      else if c = '+' then
        (readUnsignedDec cs).map fun (p : Nat × Nat) => normDec ((p.1 : Int)) p.2
      else
        (readUnsignedDec (c :: cs)).map fun (p : Nat × Nat) => normDec ((p.1 : Int)) p.2 := by
  unfold pyFloat
  rw [hps]

theorem pyFloat_canon {s : List Char} {d : Dec} (h : pyFloat s = some d) : d.Canon := by
  cases hps : pyStrip s with
  | nil => rw [pyFloat_nil s hps] at h; exact absurd h (by simp)
  | cons c cs =>
    rw [pyFloat_cons s c cs hps] at h
    split_ifs at h <;>
      · rcases Option.map_eq_some'.mp h with ⟨p, _, rfl⟩
        exact normDec_canon _ _

theorem obind_some {A B : Type} (x : A) (f : A → Option B) : obind (some x) f = f x := rfl

theorem intStr_head (n : Int) :
    ∃ c cs, intStr n = c :: cs ∧ (isDigitChar c || c = '-') = true := by
  rw [intStr]
  split
  · exact ⟨'-', natStr n.natAbs, rfl, by decide⟩
  · obtain ⟨c, cs, hcs, hd⟩ := natStr_head n.natAbs
    exact ⟨c, cs, hcs, by simp [hd]⟩

theorem not_header_of_head (c : Char) (rest : List Char) (h : ¬ c = 't') :
    timeMsHeader.isPrefixOf (c :: rest) = false := by
  have hb : ('t' == c) = false := beq_eq_false_iff_ne.mpr fun he => h he.symm
  simp [timeMsHeader, List.isPrefixOf, hb]

theorem head_ne_t {c : Char} (h : (isDigitChar c || c = '-') = true) : ¬ c = 't' := by
  have h2 : isDigitChar c = true ∨ c = '-' := by simpa using h
  rcases h2 with hd | hm
  · exact digit_ne hd (by decide)
  · rw [hm]
    decide

theorem logRow_shape (d : TelemetryData) :
    ∃ c rest, joinOnChar ';' (rowFields d) = c :: rest ∧
      (isDigitChar c || c = '-') = true := by
  obtain ⟨c, cs, hcs, hd⟩ := intStr_head d.time_ms
  have hj : joinOnChar ';' (rowFields d) =
      intStr d.time_ms ++ ';' :: joinOnChar ';' (rowFields d).tail := rfl
  refine ⟨c, cs ++ ';' :: joinOnChar ';' (rowFields d).tail, ?_, hd⟩
  rw [hj, hcs, List.cons_append]

/-- The semicolon row written by the logger of src/log_handlers/csv_logger.py
re-parses to the record it came from, for records in normal form. -/
theorem parse_logHandlersRow (r : TelemetryData) (hc : CanonRec r) :
    parse_csv_line (logHandlersRow r) = some r := by
  obtain ⟨hsp, hth, hbt, hgl, hgg, hgv, hax, hay, haz, hla, hlo, hal, hfl, hfr,
    hrl, hrr⟩ := hc
  have hstrip := row_strip ';' (by decide) r
  have hsplit : splitOnChar ';' (joinOnChar ';' (rowFields r)) = rowFields r :=
    splitOnChar_join ';' (rowFields r)
      (fun f hf c hcf => rowChar_ne_semi (rowFields_chars r f hf c hcf))
      (by simp [rowFields])
  obtain ⟨c, rest, hshape, hcc⟩ := logRow_shape r
  have hne : joinOnChar ';' (rowFields r) ≠ [] := by
    rw [hshape]
    simp
  have hnh : timeMsHeader.isPrefixOf (joinOnChar ';' (rowFields r)) = false := by
    rw [hshape]
    exact not_header_of_head c rest (head_ne_t hcc)
  have hpe : parseEnhanced (rowFields r) =
      obind (pyInt (intStr r.time_ms)) fun t =>
      obind (pyFloat (decStr r.speed)) fun sp =>
      obind (pyInt (intStr r.rpm)) fun rp =>
      obind (pyFloat (decStr r.throttle)) fun th =>
      obind (pyFloat (decStr r.battery_temp)) fun bt =>
      obind (pyFloat (decStr r.g_force_lat)) fun gl =>
      obind (pyFloat (decStr r.g_force_long)) fun gg =>
      obind (pyFloat (decStr r.g_force_vert)) fun gv =>
      obind (pyFloat (decStr r.acceleration_x)) fun ax =>
      obind (pyFloat (decStr r.acceleration_y)) fun ay =>
      obind (pyFloat (decStr r.acceleration_z)) fun az =>
      obind (pyFloat (decStr r.gps_latitude)) fun la =>
      obind (pyFloat (decStr r.gps_longitude)) fun lo =>
      obind (pyFloat (decStr r.gps_altitude)) fun al =>
      obind (pyFloat (decStr r.tire_temp_fl)) fun fl =>
      obind (pyFloat (decStr r.tire_temp_fr)) fun fr =>
      obind (pyFloat (decStr r.tire_temp_rl)) fun rl =>
      obind (pyFloat (decStr r.tire_temp_rr)) fun rr =>
      some
        { time_ms := t, speed := sp, rpm := rp, throttle := th, battery_temp := bt
          g_force_lat := gl, g_force_long := gg, g_force_vert := gv
          acceleration_x := ax, acceleration_y := ay, acceleration_z := az
          gps_latitude := la, gps_longitude := lo, gps_altitude := al
          tire_temp_fl := fl, tire_temp_fr := fr, tire_temp_rl := rl
          tire_temp_rr := rr } := rfl
  rw [logHandlersRow, csvRow_eq]
  simp only [parse_csv_line, hstrip, hsplit]
  rw [if_neg hne, if_neg (by simp [hnh]),
    if_neg (by simp [rowFields]), if_pos (by simp [rowFields])]
  rw [hpe, pyInt_intStr r.time_ms, pyFloat_decStr r.speed hsp,
    pyInt_intStr r.rpm, pyFloat_decStr r.throttle hth,
    pyFloat_decStr r.battery_temp hbt, pyFloat_decStr r.g_force_lat hgl,
    pyFloat_decStr r.g_force_long hgg, pyFloat_decStr r.g_force_vert hgv,
    pyFloat_decStr r.acceleration_x hax, pyFloat_decStr r.acceleration_y hay,
    pyFloat_decStr r.acceleration_z haz, pyFloat_decStr r.gps_latitude hla,
    pyFloat_decStr r.gps_longitude hlo, pyFloat_decStr r.gps_altitude hal,
    pyFloat_decStr r.tire_temp_fl hfl, pyFloat_decStr r.tire_temp_fr hfr,
    pyFloat_decStr r.tire_temp_rl hrl, pyFloat_decStr r.tire_temp_rr hrr]
  simp only [obind_some]

theorem obind_none {A B : Type} (f : A → Option B) : obind none f = none := rfl

theorem parseLegacy_canon {vs : List (List Char)} {r : TelemetryData}
    (h : parseLegacy vs = some r) : CanonRec r := by
  rw [parseLegacy] at h
  cases h0 : pyInt (getField vs 0) <;> rw [h0] at h
  · rw [obind_none] at h
    exact absurd h (by simp)
  rw [obind_some] at h
  cases h1 : pyFloat (getField vs 1) <;> rw [h1] at h
  · rw [obind_none] at h
    exact absurd h (by simp)
  rw [obind_some] at h
  cases h2 : pyInt (getField vs 2) <;> rw [h2] at h
  · rw [obind_none] at h
    exact absurd h (by simp)
  rw [obind_some] at h
  cases h3 : pyFloat (getField vs 3) <;> rw [h3] at h
  · rw [obind_none] at h
    exact absurd h (by simp)
  rw [obind_some] at h
  cases h4 : pyFloat (getField vs 4) <;> rw [h4] at h
  · rw [obind_none] at h
    exact absurd h (by simp)
  rw [obind_some] at h
  injection h with h2
  rw [← h2]
  exact ⟨pyFloat_canon h1, pyFloat_canon h3, pyFloat_canon h4, Or.inl rfl, Or.inl rfl, Or.inl rfl, Or.inl rfl, Or.inl rfl, Or.inl rfl, Or.inl rfl, Or.inl rfl, Or.inl rfl, Or.inl rfl, Or.inl rfl, Or.inl rfl, Or.inl rfl⟩

theorem parseEnhanced_canon {vs : List (List Char)} {r : TelemetryData}
    (h : parseEnhanced vs = some r) : CanonRec r := by
  rw [parseEnhanced] at h
  cases h0 : pyInt (getField vs 0) <;> rw [h0] at h
  · rw [obind_none] at h
    exact absurd h (by simp)
  rw [obind_some] at h
  cases h1 : pyFloat (getField vs 1) <;> rw [h1] at h
  · rw [obind_none] at h
    exact absurd h (by simp)
  rw [obind_some] at h
  cases h2 : pyInt (getField vs 2) <;> rw [h2] at h
  · rw [obind_none] at h
    exact absurd h (by simp)
  rw [obind_some] at h
  cases h3 : pyFloat (getField vs 3) <;> rw [h3] at h
  · rw [obind_none] at h
    exact absurd h (by simp)
  rw [obind_some] at h
  cases h4 : pyFloat (getField vs 4) <;> rw [h4] at h
  · rw [obind_none] at h
    exact absurd h (by simp)
  rw [obind_some] at h
  cases h5 : pyFloat (getField vs 5) <;> rw [h5] at h
  · rw [obind_none] at h
    exact absurd h (by simp)
  rw [obind_some] at h
  cases h6 : pyFloat (getField vs 6) <;> rw [h6] at h
  · rw [obind_none] at h
    exact absurd h (by simp)
  rw [obind_some] at h
  cases h7 : pyFloat (getField vs 7) <;> rw [h7] at h
  · rw [obind_none] at h
    exact absurd h (by simp)
  rw [obind_some] at h
  cases h8 : pyFloat (getField vs 8) <;> rw [h8] at h
  · rw [obind_none] at h
    exact absurd h (by simp)
  rw [obind_some] at h
  cases h9 : pyFloat (getField vs 9) <;> rw [h9] at h
  · rw [obind_none] at h
    exact absurd h (by simp)
  rw [obind_some] at h
  cases h10 : pyFloat (getField vs 10) <;> rw [h10] at h
  · rw [obind_none] at h
    exact absurd h (by simp)
  rw [obind_some] at h
  cases h11 : pyFloat (getField vs 11) <;> rw [h11] at h
  · rw [obind_none] at h
    exact absurd h (by simp)
  rw [obind_some] at h
  cases h12 : pyFloat (getField vs 12) <;> rw [h12] at h
  · rw [obind_none] at h
    exact absurd h (by simp)
  rw [obind_some] at h
  cases h13 : pyFloat (getField vs 13) <;> rw [h13] at h
  · rw [obind_none] at h
    exact absurd h (by simp)
  rw [obind_some] at h
  cases h14 : pyFloat (getField vs 14) <;> rw [h14] at h
  · rw [obind_none] at h
    exact absurd h (by simp)
  rw [obind_some] at h
  cases h15 : pyFloat (getField vs 15) <;> rw [h15] at h
  · rw [obind_none] at h
    exact absurd h (by simp)
  rw [obind_some] at h
  cases h16 : pyFloat (getField vs 16) <;> rw [h16] at h
  · rw [obind_none] at h
    exact absurd h (by simp)
  rw [obind_some] at h
  cases h17 : pyFloat (getField vs 17) <;> rw [h17] at h
  · rw [obind_none] at h
    exact absurd h (by simp)
  rw [obind_some] at h
  injection h with h2
  rw [← h2]
  exact ⟨pyFloat_canon h1, pyFloat_canon h3, pyFloat_canon h4, pyFloat_canon h5, pyFloat_canon h6, pyFloat_canon h7, pyFloat_canon h8, pyFloat_canon h9, pyFloat_canon h10, pyFloat_canon h11, pyFloat_canon h12, pyFloat_canon h13, pyFloat_canon h14, pyFloat_canon h15, pyFloat_canon h16, pyFloat_canon h17⟩

theorem parse_canon {line : List Char} {r : TelemetryData}
    (h : parse_csv_line line = some r) : CanonRec r := by
  simp only [parse_csv_line] at h
  split_ifs at h
  · exact parseLegacy_canon h
  · exact parseEnhanced_canon h

/-- C3: a record parsed from a valid 18-field enhanced line, serialized as
one row by the CSV Logger of src/log_handlers/csv_logger.py (delimiter
config.CSV_DELIMITER, the semicolon), re-parses to the identical record;
the row serialized by the CSVLogger of src/src/csv_logger.py (csv.writer
with its default delimiter, the comma) never re-parses at all. -/
theorem parser_logger_roundTrip (line : List Char) (r : TelemetryData)
    (hp : parse_csv_line line = some r)
    (_h18 : (splitOnChar ';' (pyStrip line)).length = 18) :
    parse_csv_line (logHandlersRow r) = some r ∧
    parse_csv_line (srcLoggerRow r) = none :=
  ⟨parse_logHandlersRow r (parse_canon hp), srcLoggerRow_no_reparse r⟩

/-- Witness for C3: the docstring sample line round-trips through the
semicolon logger and is lost by the comma logger. -/
theorem parser_logger_roundTrip_witness :
    parse_csv_line enhLine = some enhRec ∧
    (splitOnChar ';' (pyStrip enhLine)).length = 18 ∧
    parse_csv_line (logHandlersRow enhRec) = some enhRec ∧
    parse_csv_line (srcLoggerRow enhRec) = none :=
  ⟨by decide, by decide,
    parser_logger_roundTrip enhLine enhRec (by decide) (by decide)⟩
